import Mathlib

/-!
Shallow embedding of the `metrics` / `metrics-util` core: the key/label
identity model (`src/metrics/src/key.rs`), the handle dispatch wrappers
(`src/metrics/src/handles.rs`) and the concurrent registry
(`src/metrics-util/src/registry.rs`), modelled sequentially with explicit
state.  Machine details that matter to the claims are made explicit:

* `Box::leak` allocations become a `heap : List H` whose indices play the
  role of the leaked `&'static H` references;
* the `arc_swap`-published `im::HashMap` snapshot becomes an association
  list with unique keys (`mappings`);
* the id-ordered `Vec<(K, &'static H)>` behind the `ShardedLock` becomes
  `handles : List (K × Nat)`;
* `ShardedLock` poisoning (a panic while the write guard is held poisons
  the lock, and later `.expect(...)` calls abort) becomes a `poisoned`
  flag, and a panicking factory is modelled by an `Option`-returning
  factory, with panics surfaced as `Except RegPanic`.
-/

namespace MetricsCore

/-! ## Key/Label model (`src/metrics/src/key.rs`)

`ScopedString` is `Cow<'static, str>`; both variants hold the same string
data, and `PartialEq`/`Hash` on `Cow` compare the dereferenced string, so
it is modelled by `String`. -/

/-- A key/value pair used to further describe a metric
(`struct Label(ScopedString, ScopedString)`). -/
structure Label where
  key : String
  value : String
deriving DecidableEq, Repr

/-- A metric key: a name plus an optional vector of labels
(`struct Key { name: ScopedString, labels: Option<Vec<Label>> }`).
Equality is the derived structural equality (`#[derive(PartialEq, Eq)]`). -/
structure Key where
  name : String
  labels : Option (List Label)
deriving DecidableEq, Repr

/-- `Key::from_name`: constructs a key with `labels: None`. -/
def Key.from_name (name : String) : Key :=
  { name := name, labels := none }

/-- `Key::from_name_and_labels`: constructs a key with
`labels: Some(labels.into_labels())`.  `IntoLabels` conversions are pure
reshaping of the iterable into a `Vec<Label>`, so the model takes the
resulting label list directly. -/
def Key.from_name_and_labels (name : String) (labels : List Label) : Key :=
  { name := name, labels := some labels }

/-- `Key::add_labels`: `self.labels.get_or_insert_with(Vec::new).extend(new_labels)` —
the existing vector (or a fresh empty one) is extended in place with the
new labels appended at the end. -/
def Key.add_labels (k : Key) (new_labels : List Label) : Key :=
  match k.labels with
  | none => { k with labels := some ([] ++ new_labels) }
  | some ls => { k with labels := some (ls ++ new_labels) }

/-- `Key::labels`: the label sequence exposed by the `labels()` iterator —
the stored vector when present, the empty slice otherwise. -/
def Key.labelsList (k : Key) : List Label :=
  match k.labels with
  | none => []
  | some ls => ls

/-! ## Handle dispatch wrappers (`src/metrics/src/handles.rs`)

Each `&'static dyn Counter`-style capability object is modelled
extensionally by the observable effect of its single operation: the list
of metric events one invocation emits.  `f64` arguments are never
inspected by this layer (the no-ops discard them, real implementations
forward them opaquely), so a gauge/histogram value is carried as its
64-bit pattern, a `Nat`. -/

/-- Observable effect of one measurement operation. -/
inductive MetricEvent where
  | counterIncremented (value : Nat)
  | gaugeUpdated (bits : Nat)
  | histogramRecorded (bits : Nat)
deriving DecidableEq, Repr

/-- The `Counter` capability: `fn increment_counter(&self, value: u64)`. -/
structure Counter where
  increment_counter : Nat → List MetricEvent

/-- The `Gauge` capability: `fn update_gauge(&self, value: f64)`. -/
structure Gauge where
  update_gauge : Nat → List MetricEvent

/-- The `Histogram` capability: `fn record_histogram(&self, value: f64)`. -/
structure Histogram where
  record_histogram : Nat → List MetricEvent

/-- `struct NoopCounter` / `impl Counter for NoopCounter`: the body is
empty, so an invocation has no observable effect. -/
def NoopCounter : Counter :=
  { increment_counter := fun _ => [] }

/-- `struct NoopGauge`: an invocation has no observable effect. -/
def NoopGauge : Gauge :=
  { update_gauge := fun _ => [] }

/-- `struct NoopHistogram`: an invocation has no observable effect. -/
def NoopHistogram : Histogram :=
  { record_histogram := fun _ => [] }

/-- `static NOOP_COUNTER: &'static dyn Counter = &NoopCounter;` -/
def NOOP_COUNTER : Counter := NoopCounter

/-- `static NOOP_GAUGE: &'static dyn Gauge = &NoopGauge;` -/
def NOOP_GAUGE : Gauge := NoopGauge

/-- `static NOOP_HISTOGRAM: &'static dyn Histogram = &NoopHistogram;` -/
def NOOP_HISTOGRAM : Histogram := NoopHistogram

/-- `pub struct CounterHandle(&'static dyn Counter);` -/
structure CounterHandle where
  backing : Counter

/-- `CounterHandle::increment_counter`: forwards to the backing capability. -/
def CounterHandle.increment_counter (h : CounterHandle) (value : Nat) : List MetricEvent :=
  h.backing.increment_counter value

/-- `impl Default for CounterHandle`: wraps `NOOP_COUNTER`. -/
def CounterHandle.default : CounterHandle :=
  { backing := NOOP_COUNTER }

/-- `pub struct GaugeHandle(&'static dyn Gauge);` -/
structure GaugeHandle where
  backing : Gauge

/-- `GaugeHandle::update_gauge`: forwards to the backing capability. -/
def GaugeHandle.update_gauge (h : GaugeHandle) (value : Nat) : List MetricEvent :=
  h.backing.update_gauge value

/-- `impl Default for GaugeHandle`: wraps `NOOP_GAUGE`. -/
def GaugeHandle.default : GaugeHandle :=
  { backing := NOOP_GAUGE }

/-- `pub struct HistogramHandle(&'static dyn Histogram);` -/
structure HistogramHandle where
  backing : Histogram

/-- `HistogramHandle::record_histogram`: forwards to the backing capability. -/
def HistogramHandle.record_histogram (h : HistogramHandle) (value : Nat) : List MetricEvent :=
  h.backing.record_histogram value

/-- `impl Default for HistogramHandle`: wraps `NOOP_HISTOGRAM`. -/
def HistogramHandle.default : HistogramHandle :=
  { backing := NOOP_HISTOGRAM }

/-! ## Registry (`src/metrics-util/src/registry.rs`)

State of a `Registry<K, H>`.  The `&'static H` references produced by
`Box::leak` are the indices of `heap`; `mappings` is the
`ArcSwap<ImmutableHashMap<K, (usize, &'static H)>>` snapshot, as an
association list whose key set stays duplicate-free; `handles` is the
id-ordered `ShardedLock<Vec<(K, &'static H)>>` table; `poisoned` records
whether the `ShardedLock` was poisoned by a panic under its write guard
(the `lock: Mutex<()>` is a `parking_lot` mutex and does not poison). -/
structure Registry (K H : Type) where
  heap : List H
  mappings : List (K × (Nat × Nat))
  handles : List (K × Nat)
  poisoned : Bool
deriving DecidableEq, Repr

/-- `Registry::new`: empty snapshot, empty table. -/
def Registry.new (K H : Type) : Registry K H :=
  { heap := [], mappings := [], handles := [], poisoned := false }

/-- Lookup in the snapshot association list
(`ImmutableHashMap::get` — hash-map lookup, here first-match on the
duplicate-free key list). -/
def lookupEntry {K V : Type} [DecidableEq K] : List (K × V) → K → Option V
  | [], _ => none
  | (k, v) :: rest, key => if k = key then some v else lookupEntry rest key

/-- `ImmutableHashMap::update`: insert the binding, replacing an existing
binding for an equal key. -/
def updateEntry {K V : Type} [DecidableEq K] : List (K × V) → K → V → List (K × V)
  | [], key, v => [(key, v)]
  | (k, v') :: rest, key, v =>
      if k = key then (key, v) :: rest else (k, v') :: updateEntry rest key v

/-- What a registry call can panic with. -/
inductive RegPanic where
  | factoryPanic
  | lockPoisoned
deriving DecidableEq, Repr

/-- `Registry::get_or_create_handle`, with a fallible factory (a Rust
factory that panics is `none`).  Mirrors the source control flow:
fast-path snapshot check; take the global mutex; re-check the snapshot;
`handles.write().expect(...)` (a panic on a poisoned lock); `id = wg.len()`;
`f(id, &key)` — a panic here unwinds while the write guard is held and
poisons the lock, with no mutation of table or snapshot; `Box::leak`;
append to the table; publish the updated snapshot. -/
def Registry.get_or_create_handleF {K H : Type} [DecidableEq K]
    (r : Registry K H) (key : K) (f : Nat → K → Option H) :
    Except RegPanic (Nat × Nat) × Registry K H :=
  match lookupEntry r.mappings key with
  | some entry => (.ok entry, r)
  | none =>
    match lookupEntry r.mappings key with
    | some entry => (.ok entry, r)
    | none =>
      if r.poisoned then (.error .lockPoisoned, r)
      else
        let id := r.handles.length
        match f id key with
        | none => (.error .factoryPanic, { r with poisoned := true })
        | some handle =>
          let sh := r.heap.length
          { fst := .ok (id, sh)
            snd :=
              { heap := r.heap ++ [handle]
                mappings := updateEntry r.mappings key (id, sh)
                handles := r.handles ++ [(key, sh)]
                poisoned := r.poisoned } }

/-- `Registry::get_or_create_handle` with an infallible factory (the
source signature: `F: FnOnce(usize, &K) -> H`), on a registry whose locks
are healthy — the executions in which no panic occurs.  Same control flow
as `get_or_create_handleF`. -/
def Registry.get_or_create_handle {K H : Type} [DecidableEq K]
    (r : Registry K H) (key : K) (f : Nat → K → H) :
    (Nat × Nat) × Registry K H :=
  match lookupEntry r.mappings key with
  | some entry => (entry, r)
  | none =>
    match lookupEntry r.mappings key with
    | some entry => (entry, r)
    | none =>
      let id := r.handles.length
      let handle := f id key
      let sh := r.heap.length
      { fst := (id, sh)
        snd :=
          { heap := r.heap ++ [handle]
            mappings := updateEntry r.mappings key (id, sh)
            handles := r.handles ++ [(key, sh)]
            poisoned := r.poisoned } }

/-- `Registry::with_handle`: `handles.read().expect(...)` (a panic when
the lock is poisoned), then `rg.get(id).map(|(k, h)| f(k, *h))`. -/
def Registry.with_handle {K H V : Type} [DecidableEq K]
    (r : Registry K H) (id : Nat) (f : K → Nat → V) :
    Except RegPanic (Option V) :=
  if r.poisoned then .error .lockPoisoned
  else .ok ((r.handles.get? id).map (fun p => f p.1 p.2))

/-- `Registry::get_handles`: clone the published snapshot and reshape it
into key → handle reference, dropping ids (`.map(|(k, (_, h))| (k, h))`). -/
def Registry.get_handles {K H : Type} (r : Registry K H) : List (K × Nat) :=
  r.mappings.map (fun p => (p.1, p.2.2))

/-- A sequence of `get_or_create_handle` calls (key and factory per call),
run left to right, discarding the returned pairs. -/
def Registry.runOps {K H : Type} [DecidableEq K]
    (r : Registry K H) (ops : List (K × (Nat → K → H))) : Registry K H :=
  ops.foldl (fun s op => (s.get_or_create_handle op.1 op.2).2) r

/-! ## Association-list lemmas -/

theorem lookupEntry_updateEntry_self {K V : Type} [DecidableEq K]
    (m : List (K × V)) (k : K) (v : V) :
    lookupEntry (updateEntry m k v) k = some v := by
  induction m with
  | nil => simp [updateEntry, lookupEntry]
  | cons p rest ih =>
    by_cases h : p.1 = k
    · simp [updateEntry, lookupEntry, h]
    · simp [updateEntry, lookupEntry, h, ih]

theorem lookupEntry_updateEntry_ne {K V : Type} [DecidableEq K]
    (m : List (K × V)) (k k' : K) (v : V) (hne : k' ≠ k) :
    lookupEntry (updateEntry m k v) k' = lookupEntry m k' := by
  induction m with
  | nil => simp [updateEntry, lookupEntry, Ne.symm hne]
  | cons p rest ih =>
    by_cases h : p.1 = k
    · simp [updateEntry, lookupEntry, h, Ne.symm hne]
    · by_cases h' : p.1 = k'
      · simp [updateEntry, lookupEntry, h, h', hne]
      · simp [updateEntry, lookupEntry, h, h', ih]

theorem updateEntry_of_lookup_none {K V : Type} [DecidableEq K]
    (m : List (K × V)) (k : K) (v : V) (h : lookupEntry m k = none) :
    updateEntry m k v = m ++ [(k, v)] := by
  induction m with
  | nil => simp [updateEntry]
  | cons p rest ih =>
    by_cases hk : p.1 = k
    · simp [lookupEntry, hk] at h
    · simp [lookupEntry, hk] at h
      simp [updateEntry, hk, ih h]

theorem lookupEntry_eq_none_iff {K V : Type} [DecidableEq K]
    (m : List (K × V)) (k : K) :
    lookupEntry m k = none ↔ k ∉ m.map Prod.fst := by
  induction m with
  | nil => simp [lookupEntry]
  | cons p rest ih =>
    by_cases hk : p.1 = k
    · simp [lookupEntry, hk]
    · simp [lookupEntry, hk, ih]
      exact fun _ h => hk h.symm

/-! ## Registry invariant: dense, mutually consistent ids -/

/-- Consistency of a registry state: every snapshot binding points at the
table slot of the same id with the same key and leaked reference; every
table slot is published in the snapshot under its own index; snapshot
keys are duplicate-free; and the snapshot and the table have the same
size, so ids are exactly `0..n` for `n` distinct registered keys. -/
structure GoodRegistry {K H : Type} [DecidableEq K] (r : Registry K H) : Prop where
  table_of_mapping : ∀ k id ref, lookupEntry r.mappings k = some (id, ref) →
    r.handles.get? id = some (k, ref) ∧ ref < r.heap.length
  mapping_of_table : ∀ i k ref, r.handles.get? i = some (k, ref) →
    lookupEntry r.mappings k = some (i, ref)
  keys_nodup : (r.mappings.map Prod.fst).Nodup
  size_eq : r.mappings.length = r.handles.length

theorem goodRegistry_new (K H : Type) [DecidableEq K] :
    GoodRegistry (Registry.new K H) := by
  constructor
  · intro k id ref h
    simp [Registry.new, lookupEntry] at h
  · intro i k ref h
    simp [Registry.new] at h
  · simp [Registry.new]
  · simp [Registry.new]

/-! ## Behaviour lemmas for `get_or_create_handle` -/

theorem get_or_create_cached {K H : Type} [DecidableEq K]
    (r : Registry K H) (key : K) (f : Nat → K → H) (e : Nat × Nat)
    (h : lookupEntry r.mappings key = some e) :
    r.get_or_create_handle key f = (e, r) := by
  simp [Registry.get_or_create_handle, h]

theorem get_or_create_fresh {K H : Type} [DecidableEq K]
    (r : Registry K H) (key : K) (f : Nat → K → H)
    (h : lookupEntry r.mappings key = none) :
    r.get_or_create_handle key f =
      ((r.handles.length, r.heap.length),
        { heap := r.heap ++ [f r.handles.length key]
          mappings := updateEntry r.mappings key (r.handles.length, r.heap.length)
          handles := r.handles ++ [(key, r.heap.length)]
          poisoned := r.poisoned }) := by
  simp [Registry.get_or_create_handle, h]

/-- Whatever a call does, an existing snapshot binding survives unchanged:
the snapshot is only ever extended with a key it did not contain. -/
theorem lookup_stable_step {K H : Type} [DecidableEq K]
    (r : Registry K H) (k k' : K) (f : Nat → K → H) (e : Nat × Nat)
    (h : lookupEntry r.mappings k = some e) :
    lookupEntry ((r.get_or_create_handle k' f).2).mappings k = some e := by
  rcases h' : lookupEntry r.mappings k' with _ | e'
  · have hne : k ≠ k' := by
      intro hkk
      rw [hkk, h'] at h
      exact Option.noConfusion h
    rw [get_or_create_fresh r k' f h']
    simpa [lookupEntry_updateEntry_ne _ _ _ _ hne] using h
  · rw [get_or_create_cached r k' f e' h']
    exact h

theorem lookup_stable_runOps {K H : Type} [DecidableEq K]
    (r : Registry K H) (k : K) (e : Nat × Nat)
    (ops : List (K × (Nat → K → H)))
    (h : lookupEntry r.mappings k = some e) :
    lookupEntry ((r.runOps ops)).mappings k = some e := by
  induction ops generalizing r with
  | nil => exact h
  | cons op rest ih =>
    have hstep := lookup_stable_step r k op.1 op.2 e h
    simpa [Registry.runOps] using ih _ hstep

/-- A call never changes the poisoned flag (the infallible path neither
panics nor heals a lock). -/
theorem poisoned_stable_step {K H : Type} [DecidableEq K]
    (r : Registry K H) (k : K) (f : Nat → K → H) :
    ((r.get_or_create_handle k f).2).poisoned = r.poisoned := by
  rcases h : lookupEntry r.mappings k with _ | e
  · rw [get_or_create_fresh r k f h]
  · rw [get_or_create_cached r k f e h]

theorem goodRegistry_step {K H : Type} [DecidableEq K]
    (r : Registry K H) (key : K) (f : Nat → K → H) (hg : GoodRegistry r) :
    GoodRegistry ((r.get_or_create_handle key f).2) := by
  rcases h : lookupEntry r.mappings key with _ | e
  · have hfresh : key ∉ r.mappings.map Prod.fst :=
      (lookupEntry_eq_none_iff _ _).mp h
    have hupd := updateEntry_of_lookup_none r.mappings key
      (r.handles.length, r.heap.length) h
    have hself : lookupEntry (r.mappings ++ [(key, (r.handles.length, r.heap.length))]) key
        = some (r.handles.length, r.heap.length) := by
      rw [← hupd]
      exact lookupEntry_updateEntry_self r.mappings key _
    have hne : ∀ k, k ≠ key →
        lookupEntry (r.mappings ++ [(key, (r.handles.length, r.heap.length))]) k
        = lookupEntry r.mappings k := by
      intro k hk
      rw [← hupd]
      exact lookupEntry_updateEntry_ne r.mappings key k _ hk
    rw [get_or_create_fresh r key f h]
    dsimp only
    rw [hupd]
    constructor
    · intro k id ref hl
      dsimp only at hl ⊢
      by_cases hk : k = key
      · subst hk
        rw [hself, Option.some.injEq, Prod.mk.injEq] at hl
        obtain ⟨rfl, rfl⟩ := hl
        refine ⟨?_, by simp⟩
        rw [List.get?_eq_getElem?]
        exact List.getElem?_concat_length r.handles (k, r.heap.length)
      · rw [hne k hk] at hl
        obtain ⟨ht, href⟩ := hg.table_of_mapping k id ref hl
        have hid : id < r.handles.length := by
          rcases Nat.lt_or_ge id r.handles.length with hlt | hge
          · exact hlt
          · rw [List.get?_eq_getElem?, List.getElem?_eq_none hge] at ht
            exact absurd ht (by simp)
        refine ⟨?_, ?_⟩
        · rw [List.get?_eq_getElem?, List.getElem?_append_left hid,
            ← List.get?_eq_getElem?]
          exact ht
        · simp only [List.length_append, List.length_singleton]
          omega
    · intro i k ref ht
      dsimp only at ht ⊢
      by_cases hi : i < r.handles.length
      · rw [List.get?_eq_getElem?, List.getElem?_append_left hi,
          ← List.get?_eq_getElem?] at ht
        have hl := hg.mapping_of_table i k ref ht
        have hk : k ≠ key := by
          intro hkk
          rw [hkk, h] at hl
          exact Option.noConfusion hl
        rw [hne k hk]
        exact hl
      · have hieq : i = r.handles.length := by
          rcases Nat.lt_or_ge i (r.handles.length + 1) with hlt | hge
          · exact Nat.le_antisymm (Nat.le_of_lt_succ hlt) (Nat.le_of_not_lt hi)
          · exfalso
            rw [List.get?_eq_getElem?,
              List.getElem?_eq_none (by simpa using hge)] at ht
            exact Option.noConfusion ht
        subst hieq
        rw [List.get?_eq_getElem?, List.getElem?_concat_length,
          Option.some.injEq, Prod.mk.injEq] at ht
        obtain ⟨rfl, rfl⟩ := ht
        exact hself
    · dsimp only
      rw [List.map_append]
      exact List.Nodup.append hg.keys_nodup (by simp)
        (by simpa using hfresh)
    · dsimp only
      simp [hg.size_eq]
  · rw [get_or_create_cached r key f e h]
    exact hg

theorem goodRegistry_runOps {K H : Type} [DecidableEq K]
    (r : Registry K H) (ops : List (K × (Nat → K → H))) (hg : GoodRegistry r) :
    GoodRegistry (r.runOps ops) := by
  induction ops generalizing r with
  | nil => exact hg
  | cons op rest ih =>
    simpa [Registry.runOps] using ih _ (goodRegistry_step r op.1 op.2 hg)

/-- In an association list with duplicate-free keys, lookup finds every
member at its own key. -/
theorem lookupEntry_of_mem_nodup {K V : Type} [DecidableEq K]
    (m : List (K × V)) (hnd : (m.map Prod.fst).Nodup)
    (p : K × V) (hp : p ∈ m) : lookupEntry m p.1 = some p.2 := by
  induction m with
  | nil => cases hp
  | cons q rest ih =>
    rcases List.mem_cons.mp hp with hq | hrest
    · subst hq
      simp [lookupEntry]
    · have hq1 : q.1 ≠ p.1 := by
        intro hqq
        have : p.1 ∈ rest.map Prod.fst := List.mem_map_of_mem Prod.fst hrest
        rw [← hqq] at this
        exact (List.nodup_cons.mp (by simpa using hnd)).1 this
      simp only [lookupEntry, hq1, if_false]
      exact ih (List.nodup_cons.mp (by simpa using hnd)).2 hrest

/-- On an unpoisoned registry, the fallible-factory translation with an
infallible factory computes exactly what `get_or_create_handle` computes:
the two translations of the source agree on all panic-free executions. -/
theorem get_or_create_handleF_total {K H : Type} [DecidableEq K]
    (r : Registry K H) (key : K) (f : Nat → K → H) (hp : r.poisoned = false) :
    r.get_or_create_handleF key (fun i k => some (f i k))
      = (.ok (r.get_or_create_handle key f).1, (r.get_or_create_handle key f).2) := by
  rcases h : lookupEntry r.mappings key with _ | e <;>
    simp [Registry.get_or_create_handleF, Registry.get_or_create_handle, h, hp]

/-! ## Claim theorems -/

/-- Claim C7: key equality is structural over the name and the full
ordered label sequence.  Keys with the same labels in a different order
are unequal (and registering both creates two entries with distinct ids
0 and 1), a label-less key differs from any labelled key with the same
name, and no construction path normalizes the labels: the stored label
vector is exactly the one supplied. -/
theorem c7_structural_key_identity :
    (∀ (n : String) (ls₁ ls₂ : List Label), ls₁ ≠ ls₂ →
      Key.from_name_and_labels n ls₁ ≠ Key.from_name_and_labels n ls₂) ∧
    (∀ (n : String) (ls : List Label),
      Key.from_name n ≠ Key.from_name_and_labels n ls) ∧
    (∀ (n : String) (ls : List Label),
      (Key.from_name_and_labels n ls).labels = some ls) ∧
    ((((Registry.new Key Nat).get_or_create_handle
        (Key.from_name_and_labels "a" [⟨"x", "1"⟩, ⟨"y", "2"⟩]) (fun _ _ => 0)).1).1 = 0 ∧
      ((((Registry.new Key Nat).get_or_create_handle
          (Key.from_name_and_labels "a" [⟨"x", "1"⟩, ⟨"y", "2"⟩]) (fun _ _ => 0)).2.get_or_create_handle
          (Key.from_name_and_labels "a" [⟨"y", "2"⟩, ⟨"x", "1"⟩]) (fun _ _ => 0)).1).1 = 1 ∧
      ((((Registry.new Key Nat).get_or_create_handle
          (Key.from_name_and_labels "a" [⟨"x", "1"⟩, ⟨"y", "2"⟩]) (fun _ _ => 0)).2.get_or_create_handle
          (Key.from_name_and_labels "a" [⟨"y", "2"⟩, ⟨"x", "1"⟩]) (fun _ _ => 0)).2.handles.length = 2)) := by
  refine ⟨?_, ?_, ?_, by decide, by decide, by decide⟩
  · intro n ls₁ ls₂ hne heq
    simp [Key.from_name_and_labels, Key.mk.injEq] at heq
    exact hne heq
  · intro n ls heq
    simp [Key.from_name, Key.from_name_and_labels, Key.mk.injEq] at heq
  · intro n ls
    rfl

/-- Witness for C7: the two label orders of the example give unequal
keys. -/
theorem c7_witness :
    Key.from_name_and_labels "a" [⟨"x", "1"⟩, ⟨"y", "2"⟩] ≠
      Key.from_name_and_labels "a" [⟨"y", "2"⟩, ⟨"x", "1"⟩] :=
  c7_structural_key_identity.1 "a" _ _ (by decide)

/-- Claim C8: `Key::add_labels` appends the new labels after the existing
label sequence, never replacing or reordering it, and leaves the name
unchanged; a previously label-less key gains exactly the new labels. -/
theorem c8_add_labels_appends (k : Key) (new_labels : List Label) :
    (k.add_labels new_labels).name = k.name ∧
    (k.add_labels new_labels).labelsList = k.labelsList ++ new_labels := by
  cases hk : k.labels <;> simp [Key.add_labels, Key.labelsList, hk]

/-- Claim C9: each default-constructed handle wrapper is backed by the
process-wide shared no-op capability, and its single operation discards
any input value with no observable effect. -/
theorem c9_default_handles_noop :
    CounterHandle.default.backing = NOOP_COUNTER ∧
    GaugeHandle.default.backing = NOOP_GAUGE ∧
    HistogramHandle.default.backing = NOOP_HISTOGRAM ∧
    (∀ value, CounterHandle.default.increment_counter value = []) ∧
    (∀ value, GaugeHandle.default.update_gauge value = []) ∧
    (∀ value, HistogramHandle.default.record_histogram value = []) :=
  ⟨rfl, rfl, rfl, fun _ => rfl, fun _ => rfl, fun _ => rfl⟩

/-- Claim C10: a key constructed from a name alone (`labels: None`) is
structurally distinct from a key with the same name and an empty label
vector (`labels: Some([])`), and registering both yields two separate
entries with ids 0 and 1. -/
theorem c10_absent_vs_empty_labels :
    (∀ n : String, Key.from_name n ≠ Key.from_name_and_labels n []) ∧
    ((((Registry.new Key Nat).get_or_create_handle
        (Key.from_name "a") (fun _ _ => 0)).1).1 = 0 ∧
      ((((Registry.new Key Nat).get_or_create_handle
          (Key.from_name "a") (fun _ _ => 0)).2.get_or_create_handle
          (Key.from_name_and_labels "a" []) (fun _ _ => 0)).1).1 = 1 ∧
      ((((Registry.new Key Nat).get_or_create_handle
          (Key.from_name "a") (fun _ _ => 0)).2.get_or_create_handle
          (Key.from_name_and_labels "a" []) (fun _ _ => 0)).2.handles.length = 2)) := by
  refine ⟨?_, by decide, by decide, by decide⟩
  intro n heq
  simp [Key.from_name, Key.from_name_and_labels, Key.mk.injEq] at heq

/-- Witness for C10 at a concrete name. -/
theorem c10_witness :
    Key.from_name "requests" ≠ Key.from_name_and_labels "requests" [] :=
  c10_absent_vs_empty_labels.1 "requests"

/-- Claim C1: a first `get_or_create_handle` for a key invokes the
factory (leaking exactly `f id key` into the heap, with the fresh id and
reference returned), and every repeated call for that key — after any
interleaved registrations of other keys, and whatever factory the later
call supplies — returns the identical `(id, handle_reference)` pair
without invoking its factory or touching the state: the result does not
depend on the later factory at all. -/
theorem c1_get_or_create_idempotent {K H : Type} [DecidableEq K]
    (r : Registry K H) (key : K) (f : Nat → K → H)
    (p : Nat × Nat) (r' : Registry K H)
    (h : r.get_or_create_handle key f = (p, r')) :
    (lookupEntry r.mappings key = none →
      p = (r.handles.length, r.heap.length) ∧
      r'.heap = r.heap ++ [f r.handles.length key]) ∧
    (∀ (ops : List (K × (Nat → K → H))) (g : Nat → K → H),
      (r'.runOps ops).get_or_create_handle key g = (p, r'.runOps ops)) := by
  have hmem : lookupEntry r'.mappings key = some p := by
    rcases hc : lookupEntry r.mappings key with _ | e
    · rw [get_or_create_fresh r key f hc] at h
      obtain ⟨hp, hr⟩ := Prod.mk.injEq .. ▸ h
      rw [← hr, ← hp]
      dsimp only
      rw [updateEntry_of_lookup_none r.mappings key _ hc]
      exact updateEntry_of_lookup_none r.mappings key _ hc ▸
        lookupEntry_updateEntry_self r.mappings key _
    · rw [get_or_create_cached r key f e hc] at h
      obtain ⟨hp, hr⟩ := Prod.mk.injEq .. ▸ h
      rw [← hr, ← hp]
      exact hc
  constructor
  · intro hc
    rw [get_or_create_fresh r key f hc] at h
    obtain ⟨hp, hr⟩ := Prod.mk.injEq .. ▸ h
    exact ⟨hp.symm, by rw [← hr]⟩
  · intro ops g
    exact get_or_create_cached _ key g p (lookup_stable_runOps r' key p ops hmem)

/-- Witness for C1: registering key 1, then key 2, then key 1 again with
a different factory returns the original pair and an unchanged state. -/
theorem c1_witness :
    ((((Registry.new Nat Nat).get_or_create_handle 1 (fun _ _ => 42)).2.runOps
        [(2, fun _ _ => 5)]).get_or_create_handle 1 (fun _ _ => 99))
      = ((0, 0),
        (((Registry.new Nat Nat).get_or_create_handle 1 (fun _ _ => 42)).2.runOps
          [(2, fun _ _ => 5)])) :=
  (c1_get_or_create_idempotent (Registry.new Nat Nat) 1 (fun _ _ => 42)
    (0, 0) _ rfl).2 [(2, fun _ _ => 5)] (fun _ _ => 99)

/-- Claim C3: across any sequence of calls from a fresh registry, the
granted ids are dense: the snapshot and the id-ordered table form a
bijection between the `n` distinct registered keys and ids `0..n`
(`GoodRegistry`), each new id equals the table length at the moment of
insertion, and the `Key("a")`, `Key("b")`, `Key("a")` example yields ids
0, 1, 0 with a table of length 2. -/
theorem c3_dense_unique_ids :
    (∀ (K H : Type) [DecidableEq K] (ops : List (K × (Nat → K → H))),
      GoodRegistry ((Registry.new K H).runOps ops)) ∧
    (∀ (K H : Type) [DecidableEq K] (r : Registry K H) (k : K) (f : Nat → K → H),
      lookupEntry r.mappings k = none →
      ((r.get_or_create_handle k f).1).1 = r.handles.length) ∧
    ((((Registry.new Key Nat).get_or_create_handle
        (Key.from_name "a") (fun _ _ => 0)).1).1 = 0 ∧
      ((((Registry.new Key Nat).get_or_create_handle
          (Key.from_name "a") (fun _ _ => 0)).2.get_or_create_handle
          (Key.from_name "b") (fun _ _ => 0)).1).1 = 1 ∧
      (((((Registry.new Key Nat).get_or_create_handle
          (Key.from_name "a") (fun _ _ => 0)).2.get_or_create_handle
          (Key.from_name "b") (fun _ _ => 0)).2.get_or_create_handle
          (Key.from_name "a") (fun _ _ => 0)).1).1 = 0 ∧
      (((((Registry.new Key Nat).get_or_create_handle
          (Key.from_name "a") (fun _ _ => 0)).2.get_or_create_handle
          (Key.from_name "b") (fun _ _ => 0)).2.get_or_create_handle
          (Key.from_name "a") (fun _ _ => 0)).2.handles.length = 2)) := by
  refine ⟨?_, ?_, by decide, by decide, by decide, by decide⟩
  · intro K H _ ops
    exact goodRegistry_runOps _ ops (goodRegistry_new K H)
  · intro K H _ r k f hc
    rw [get_or_create_fresh r k f hc]

/-- Witness for C3: the very first registration on a fresh registry gets
id 0, the table length at that moment. -/
theorem c3_witness :
    (((Registry.new Nat Nat).get_or_create_handle 7 (fun _ _ => 1)).1).1 = 0 :=
  c3_dense_unique_ids.2.1 Nat Nat (Registry.new Nat Nat) 7 (fun _ _ => 1) rfl

/-- Claim C4: on a registry whose table lock is healthy, `with_handle`
yields an absent result — not a failure — for every id outside the
current table's range, and invokes the accessor on the stored key and
handle reference for every id inside it. -/
theorem c4_with_handle_total {K H V : Type} [DecidableEq K]
    (r : Registry K H) (hp : r.poisoned = false) (id : Nat) (f : K → Nat → V) :
    (r.handles.length ≤ id → r.with_handle id f = .ok none) ∧
    (∀ k h, r.handles.get? id = some (k, h) →
      r.with_handle id f = .ok (some (f k h))) := by
  constructor
  · intro hle
    simp [Registry.with_handle, hp, List.getElem?_eq_none hle]
  · intro k h hid
    rw [List.get?_eq_getElem?] at hid
    simp [Registry.with_handle, hp, hid]

/-- Witness for C4: an out-of-range id on an empty registry is absent; an
in-range id invokes the accessor on the stored entry. -/
theorem c4_witness :
    (Registry.new Nat Nat).with_handle 3 (fun _ h => h) = .ok none ∧
    (((Registry.new Nat Nat).get_or_create_handle 5
        (fun _ _ => 7)).2).with_handle 0 (fun k h => k + h) = .ok (some 5) :=
  ⟨(c4_with_handle_total (Registry.new Nat Nat) rfl 3 (fun _ h => h)).1 (by decide),
    (c4_with_handle_total _ rfl 0 (fun k h => k + h)).2 5 0 rfl⟩

/-- Claim C5: `get_handles` reshapes the published snapshot into a
key-to-handle mapping with ids dropped: it has exactly the snapshot's
keys with no duplicates, and every handle reference in it was stored by
a successfully completed registration (it is published in the snapshot
and sits in the table slot of its id). -/
theorem c5_get_handles_consistent {K H : Type} [DecidableEq K]
    (ops : List (K × (Nat → K → H))) :
    ((((Registry.new K H).runOps ops).get_handles).map Prod.fst
        = (((Registry.new K H).runOps ops).mappings).map Prod.fst) ∧
    ((((Registry.new K H).runOps ops).get_handles).map Prod.fst).Nodup ∧
    (∀ p ∈ ((Registry.new K H).runOps ops).get_handles,
      ∃ id, lookupEntry (((Registry.new K H).runOps ops).mappings) p.1 = some (id, p.2) ∧
        (((Registry.new K H).runOps ops).handles).get? id = some (p.1, p.2)) := by
  have hg : GoodRegistry ((Registry.new K H).runOps ops) :=
    goodRegistry_runOps _ ops (goodRegistry_new K H)
  have hkeys : (((Registry.new K H).runOps ops).get_handles).map Prod.fst
      = (((Registry.new K H).runOps ops).mappings).map Prod.fst := by
    simp [Registry.get_handles, List.map_map, Function.comp]
  refine ⟨hkeys, hkeys ▸ hg.keys_nodup, ?_⟩
  intro p hp
  obtain ⟨q, hq, hpq⟩ := List.mem_map.mp hp
  have hl : lookupEntry (((Registry.new K H).runOps ops).mappings) q.1 = some q.2 :=
    lookupEntry_of_mem_nodup _ hg.keys_nodup q hq
  obtain ⟨ht, _⟩ := hg.table_of_mapping q.1 q.2.1 q.2.2 (by simpa using hl)
  refine ⟨q.2.1, ?_, ?_⟩
  · rw [← hpq]
    simpa using hl
  · rw [← hpq]
    exact ht

/-- Witness for C5 on a concrete one-registration run. -/
theorem c5_witness :
    ((((Registry.new Nat Nat).runOps [(5, fun _ _ => 7)]).get_handles).map Prod.fst).Nodup :=
  (c5_get_handles_consistent [(5, fun _ _ => 7)]).2.1

/-- Claim C6: calling `get_or_create_handle` with an already-registered
key returns the existing `(id, handle_reference)` and leaves the whole
registry state unchanged — same table, same snapshot, same heap. -/
theorem c6_reregister_frame {K H : Type} [DecidableEq K]
    (r : Registry K H) (key : K) (f : Nat → K → H) (e : Nat × Nat)
    (h : lookupEntry r.mappings key = some e) :
    (r.get_or_create_handle key f).1 = e ∧
    ((r.get_or_create_handle key f).2).handles = r.handles ∧
    ((r.get_or_create_handle key f).2).mappings = r.mappings ∧
    (r.get_or_create_handle key f).2 = r := by
  rw [get_or_create_cached r key f e h]
  exact ⟨rfl, rfl, rfl, rfl⟩

/-- Witness for C6: re-registering key 5 with a different factory returns
the cached pair and the identical state. -/
theorem c6_witness :
    ((((Registry.new Nat Nat).get_or_create_handle 5
        (fun _ _ => 7)).2).get_or_create_handle 5 (fun _ _ => 9)).2
      = (((Registry.new Nat Nat).get_or_create_handle 5 (fun _ _ => 7)).2) :=
  (c6_reregister_frame (((Registry.new Nat Nat).get_or_create_handle 5
    (fun _ _ => 7)).2) 5 (fun _ _ => 9) (0, 0) (by decide)).2.2.2

/-- Counterexample to claim C2 as stated: after a first-time registration
of key 1 whose factory panics, the failure does propagate and neither the
table nor the snapshot gains an entry — but the factory panicked while
the table's write guard was held, so the lock is poisoned, and the
subsequent `get_or_create_handle` call for the same key with a perfectly
good factory aborts on `handles.write().expect(...)` instead of retrying
creation cleanly. -/
theorem c2_counterexample :
    (((Registry.new Nat Nat).get_or_create_handleF 1 (fun _ _ => none)).1
        = .error .factoryPanic) ∧
    ((((Registry.new Nat Nat).get_or_create_handleF 1 (fun _ _ => none)).2).mappings = []) ∧
    ((((Registry.new Nat Nat).get_or_create_handleF 1 (fun _ _ => none)).2).handles = []) ∧
    (((((Registry.new Nat Nat).get_or_create_handleF 1
        (fun _ _ => none)).2).get_or_create_handleF 1 (fun _ _ => some 7)).1
      = .error .lockPoisoned) :=
  ⟨rfl, rfl, rfl, rfl⟩

/-- Claim C2 as amended: a factory failure during a first-time
registration propagates to the caller and leaves no new entry for the key
— the snapshot, the table and the leaked-handle heap are all untouched —
but it poisons the table's write lock (the factory runs under the write
guard), so a subsequent `get_or_create_handle` call with the same key
aborts on the poisoned lock, whatever factory it supplies, rather than
retrying creation cleanly. -/
theorem c2_factory_failure_poisons {K H : Type} [DecidableEq K]
    (r : Registry K H) (key : K) (f : Nat → K → Option H)
    (hp : r.poisoned = false)
    (hmiss : lookupEntry r.mappings key = none)
    (hf : f r.handles.length key = none) :
    (r.get_or_create_handleF key f).1 = .error .factoryPanic ∧
    ((r.get_or_create_handleF key f).2).mappings = r.mappings ∧
    ((r.get_or_create_handleF key f).2).handles = r.handles ∧
    ((r.get_or_create_handleF key f).2).heap = r.heap ∧
    ((r.get_or_create_handleF key f).2).poisoned = true ∧
    (∀ g : Nat → K → Option H,
      ((r.get_or_create_handleF key f).2).get_or_create_handleF key g
        = (.error .lockPoisoned, (r.get_or_create_handleF key f).2)) := by
  have hstep : r.get_or_create_handleF key f
      = (.error .factoryPanic, { r with poisoned := true }) := by
    simp [Registry.get_or_create_handleF, hmiss, hp, hf]
  rw [hstep]
  refine ⟨rfl, rfl, rfl, rfl, rfl, ?_⟩
  intro g
  simp [Registry.get_or_create_handleF, hmiss]

/-- Witness for the amended C2 on a concrete registry, key and failing
factory. -/
theorem c2_witness :
    ((Registry.new Nat Nat).get_or_create_handleF 2 (fun _ _ => none)).1
      = .error .factoryPanic ∧
    ((((Registry.new Nat Nat).get_or_create_handleF 2
        (fun _ _ => none)).2).get_or_create_handleF 2 (fun i _ => some i))
      = (.error .lockPoisoned,
        (((Registry.new Nat Nat).get_or_create_handleF 2 (fun _ _ => none)).2)) :=
  ⟨(c2_factory_failure_poisons (Registry.new Nat Nat) 2 (fun _ _ => none)
      rfl rfl rfl).1,
    (c2_factory_failure_poisons (Registry.new Nat Nat) 2 (fun _ _ => none)
      rfl rfl rfl).2.2.2.2.2 (fun i _ => some i)⟩

end MetricsCore
